import Mathlib

/-!
Verification of the SnakeRush core: the per-tick snake game engine
(src/backend/game_logic.py) and the leaderboard store
(src/backend/leaderboard.py), shallowly embedded in Lean.

Randomness is made explicit: each call that draws random cells receives the
stream of drawn cells as a parameter (a `List Pos` for the unbounded food
search, a function `Nat -> Pos` for the 100-attempt-bounded obstacle search).
The unbounded `while True` food loop is modelled by returning `none` when the
supplied draw list is exhausted, i.e. `none` stands for non-termination.
-/

namespace SnakeRush

/-- A grid cell, as in the Python code a pair of integers. -/
abbrev Pos := ℤ × ℤ

/-- `Direction` enumeration from game_logic.py. -/
inductive Direction where
  | up
  | down
  | left
  | right
deriving DecidableEq, Repr

/-- The delta vector carried by each `Direction` value
(UP = (0,-1), DOWN = (0,1), LEFT = (-1,0), RIGHT = (1,0)). -/
def Direction.delta : Direction → Pos
  | .up => (0, -1)
  | .down => (0, 1)
  | .left => (-1, 0)
  | .right => (1, 0)

/-- The mutable state of one `SnakeGame` instance: every attribute
assigned in `SnakeGame.__init__`. Speeds are rationals: the Python floats
involved (multiples of 0.5 below 16) are exact, so ℚ models them exactly. -/
structure GameState where
  width : ℤ
  height : ℤ
  player_name : String
  score : ℤ
  game_over : Bool
  paused : Bool
  snake : List Pos
  direction : Direction
  next_direction : Direction
  food : Pos
  obstacles : List Pos
  difficulty_level : ℤ
  base_speed : ℚ
  speed : ℚ
  ticks : ℤ
deriving DecidableEq, Repr

/-- `SnakeGame._generate_food`, as called from `update`/`restart` where
`self.obstacles` exists: scan the random draws for the first cell on neither
the snake nor the obstacles.  `none` models the `while True` loop running out
of the supplied draws (non-termination). -/
def generate_food (snake obstacles : List Pos) : List Pos → Option Pos
  | [] => none
  | c :: cs =>
    if c ∈ snake ∨ c ∈ obstacles then generate_food snake obstacles cs
    else some c

/-- Outcome of running `SnakeGame.__init__`. -/
inductive InitResult where
  /-- `__init__` returned normally, producing this state. -/
  | ok (s : GameState)
  /-- `__init__` raised `AttributeError`. -/
  | attrError
  /-- the food loop consumed every supplied draw without returning. -/
  | outOfDraws
deriving DecidableEq, Repr

/-- Outcome of the food-generation loop as run from `__init__`. -/
inductive FoodInitResult where
  /-- the loop returned this cell. -/
  | found (c : Pos)
  /-- the loop raised `AttributeError`. -/
  | attrError
  /-- the loop consumed every supplied draw without returning. -/
  | outOfDraws
deriving DecidableEq, Repr

/-- `SnakeGame._generate_food` as called from `__init__` (line 49), where
`self.obstacles` has not been assigned yet (it is assigned on line 50).
Python evaluates `(x, y) not in self.snake` first; when that is true it
evaluates `(x, y) not in self.obstacles`, which raises `AttributeError`
because the attribute does not exist.  When the candidate is on the snake the
`and` short-circuits and the loop draws again. -/
def generate_food_init (snake : List Pos) : List Pos → FoodInitResult
  | [] => .outOfDraws
  | c :: cs =>
    if c ∈ snake then generate_food_init snake cs
    else .attrError

/-- `SnakeGame.__init__(width, height, player_name)` with the food draws made
explicit.  It builds the snake, directions and flags, then evaluates
`self.food = self._generate_food()` before `self.obstacles = []`; a normal
return would require `generate_food_init` to produce a cell, which it never
does. -/
def SnakeGame_init (width height : ℤ) (player_name : String)
    (foodDraws : List Pos) : InitResult :=
  let snake0 : List Pos := [(width.fdiv 2, height.fdiv 2)]
  match generate_food_init snake0 foodDraws with
  | .attrError => .attrError
  | .outOfDraws => .outOfDraws
  | .found c => .ok
      { width := width, height := height, player_name := player_name
        score := 0, game_over := false, paused := false
        snake := snake0, direction := .right, next_direction := .right
        food := c, obstacles := []
        difficulty_level := 1, base_speed := 4, speed := 4, ticks := 0 }

/-- Loop body of `SnakeGame._generate_obstacles`: `fuel` is the number of
attempts remaining out of `max_attempts = 100`, `attempt` indexes the random
stream, `acc` the obstacles accepted so far (the Python list is appended to).
A draw is kept when it is off the snake, distinct from the food, not already
chosen, and at Chebyshev distance greater than 3 from the snake's head. -/
def generate_obstacles_go (rng : ℕ → Pos) (snake : List Pos) (food head : Pos)
    (count : ℤ) : ℕ → ℕ → List Pos → List Pos
  | 0, _, acc => acc
  | fuel + 1, attempt, acc =>
    if (acc.length : ℤ) < count then
      let c := rng attempt
      let acc' :=
        if c ∉ snake ∧ c ≠ food ∧ c ∉ acc ∧
            (3 < |c.1 - head.1| ∨ 3 < |c.2 - head.2|) then
          acc ++ [c]
        else acc
      generate_obstacles_go rng snake food head count fuel (attempt + 1) acc'
    else acc

/-- `SnakeGame._generate_obstacles(count)`: at most 100 attempts, best effort
(possibly fewer than `count` obstacles). The head is `self.snake[0]`; the
snake is never empty, so the `headD` default is never read. -/
def generate_obstacles (rng : ℕ → Pos) (snake : List Pos) (food : Pos)
    (count : ℤ) : List Pos :=
  generate_obstacles_go rng snake food (snake.headD (0, 0)) count 100 0 []

/-- `SnakeGame._update_difficulty`: recompute the tier from the score; when it
changed, set the speed (capped at 12) and, from tier 3 on, fully regenerate
the obstacles. -/
def update_difficulty (rng : ℕ → Pos) (s : GameState) : GameState :=
  let new_difficulty := 1 + s.score.fdiv 50
  if new_difficulty ≠ s.difficulty_level then
    let s1 := { s with
      difficulty_level := new_difficulty
      speed := min (s.base_speed + ((new_difficulty : ℚ) - 1) * (3 / 2)) 12 }
    if 3 ≤ new_difficulty then
      let obstacle_count := min (2 + (new_difficulty - 3) * 2) 10
      { s1 with obstacles :=
          generate_obstacles rng s1.snake s1.food obstacle_count }
    else s1
  else s

/-- `SnakeGame.set_direction(direction)`: ignore the request when the delta of
the requested direction and the delta of the current direction sum to zero;
otherwise store it as the pending (`next_direction`) value. -/
def set_direction (d : Direction) (s : GameState) : GameState :=
  if s.direction.delta + d.delta = ((0 : ℤ), (0 : ℤ)) then s
  else { s with next_direction := d }

/-- `SnakeGame.toggle_pause()`. -/
def toggle_pause (s : GameState) : GameState :=
  { s with paused := !s.paused }

/-- Python truthiness of the `Optional[str]` argument of `restart`:
`if player_name:` is false for `None` and for the empty string. -/
def truthyName (o : Option String) : Bool :=
  match o with
  | none => false
  | some n => !n.isEmpty

/-- `SnakeGame.restart(player_name)`: reset every mutable attribute to its
construction default.  Here `self.obstacles` already exists, so the food
draw succeeds; note the code generates the food while `self.obstacles` still
holds the PREVIOUS game's obstacles and only afterwards clears them. -/
def restart (new_name : Option String) (foodDraws : List Pos)
    (s : GameState) : Option GameState :=
  let snake0 : List Pos := [(s.width.fdiv 2, s.height.fdiv 2)]
  match generate_food snake0 s.obstacles foodDraws with
  | none => none
  | some f => some { s with
      player_name := if truthyName new_name then new_name.getD s.player_name
                     else s.player_name
      score := 0, game_over := false, paused := false
      snake := snake0, direction := .right, next_direction := .right
      food := f, obstacles := []
      difficulty_level := 1, speed := s.base_speed, ticks := 0 }

/-- The cell one step from the snake's head in the direction that `update`
will commit (`next_direction`). -/
def nextHead (s : GameState) : Pos :=
  s.snake.headD (0, 0) + s.next_direction.delta

/-- Wall-collision test of `update`: the cell lies outside
`[0,width) × [0,height)`. -/
def outOfBounds (s : GameState) (p : Pos) : Prop :=
  p.1 < 0 ∨ s.width ≤ p.1 ∨ p.2 < 0 ∨ s.height ≤ p.2

instance (s : GameState) (p : Pos) : Decidable (outOfBounds s p) := by
  unfold outOfBounds; infer_instance

/-- `SnakeGame.update()`, the tick operation.  Returns `some (continues, s')`;
`none` models the food-regeneration loop exhausting its draws.  Mirrors the
statement order of the Python code: the early return on game-over/pause, then
`self.ticks += 1` and the commit of `next_direction`, the three collision
checks, the head insertion, and the food/tail branch. -/
def update (rngF : List Pos) (rngO : ℕ → Pos) (s : GameState) :
    Option (Bool × GameState) :=
  if s.game_over || s.paused then some (!s.game_over, s)
  else
    let s1 := { s with ticks := s.ticks + 1, direction := s.next_direction }
    let new_head := s1.snake.headD (0, 0) + s1.direction.delta
    if outOfBounds s1 new_head then some (false, { s1 with game_over := true })
    else if new_head ∈ s1.snake then some (false, { s1 with game_over := true })
    else if new_head ∈ s1.obstacles then
      some (false, { s1 with game_over := true })
    else
      let s2 := { s1 with snake := new_head :: s1.snake }
      if new_head = s2.food then
        match generate_food s2.snake s2.obstacles rngF with
        | none => none
        | some f =>
          let s3 := { s2 with score := s2.score + 10, food := f }
          some (true, update_difficulty rngO s3)
      else
        some (true, { s2 with snake := s2.snake.dropLast })

/-! ## Leaderboard store (src/backend/leaderboard.py) -/

/-- One element of the persisted `players` array. -/
structure PlayerEntry where
  name : String
  best_score : ℤ
  date : String
  time_taken : ℤ
deriving DecidableEq, Repr

/-- The ascending order induced by the Python sort key
`(-p.best_score, p.name)`: score descending, then name ascending. -/
def entryLE (p q : PlayerEntry) : Prop :=
  q.best_score < p.best_score ∨
    (p.best_score = q.best_score ∧ p.name ≤ q.name)

instance : DecidableRel entryLE := fun p q => by
  unfold entryLE; infer_instance

instance : IsTotal PlayerEntry entryLE where
  total p q := by
    unfold entryLE
    rcases lt_trichotomy p.best_score q.best_score with h | h | h
    · exact Or.inr (Or.inl h)
    · rcases le_total p.name q.name with hn | hn
      · exact Or.inl (Or.inr ⟨h, hn⟩)
      · exact Or.inr (Or.inr ⟨h.symm, hn⟩)
    · exact Or.inl (Or.inl h)

instance : IsTrans PlayerEntry entryLE where
  trans p q r hpq hqr := by
    unfold entryLE at *
    rcases hpq with h1 | ⟨h1, hn1⟩
    · rcases hqr with h2 | ⟨h2, _⟩
      · exact Or.inl (h2.trans h1)
      · exact Or.inl (by omega)
    · rcases hqr with h2 | ⟨h2, hn2⟩
      · exact Or.inl (by omega)
      · exact Or.inr ⟨h1.trans h2, hn1.trans hn2⟩

/-- `sorted(players, key=lambda p: (-p.best_score, p.name))`: Python's sort is
stable and ascending in the key, which Mathlib's (stable) `insertionSort`
under `entryLE` reproduces. -/
def sortPlayers (ps : List PlayerEntry) : List PlayerEntry :=
  List.insertionSort entryLE ps

/-- The persisted document as the read path classifies it: absent
(`FileNotFoundError`), present but not valid JSON (`json.JSONDecodeError`),
or a parsed document with its `players` array. -/
inductive StoredDoc where
  | missing
  | malformed (raw : String)
  | parsed (players : List PlayerEntry)
deriving Repr

/-- `LeaderboardManager._read_leaderboard`: the handler for
`FileNotFoundError` and `json.JSONDecodeError` returns the empty document
`players = []`; a parsed document is returned as is. -/
def read_leaderboard : StoredDoc → List PlayerEntry
  | .missing => []
  | .malformed _ => []
  | .parsed ps => ps

/-- Python's `str.lower()` as used for the case-insensitive name key,
written as a structural map over the characters so that it reduces in the
kernel (`String.toLower` is defined by well-founded recursion and does
not). -/
def lowerStr (s : String) : String :=
  String.mk (s.data.map Char.toLower)

/-- The case-insensitive lookup loop used by `submit_score` and
`get_player_best_score`: the first entry whose lowercased name equals the
lowercased query. -/
def findPlayer (player_name : String) (ps : List PlayerEntry) :
    Option PlayerEntry :=
  ps.find? (fun p => lowerStr p.name == lowerStr player_name)

/-- In-place mutation of the first case-insensitive match, as `submit_score`
does to the dict it found. -/
def update_first (player_name : String) (f : PlayerEntry → PlayerEntry) :
    List PlayerEntry → List PlayerEntry
  | [] => []
  | p :: ps =>
    if lowerStr p.name == lowerStr player_name then f p :: ps
    else p :: update_first player_name f ps

/-- `LeaderboardManager.submit_score(player_name, score, time_taken)` acting
on the parsed players list; `now` stands for `datetime.utcnow().isoformat()`.
Returns (updated?, resulting persisted list). On the no-update path the
document is not rewritten, so the list is returned unchanged. -/
def submit_score (now player_name : String) (score time_taken : ℤ)
    (board : List PlayerEntry) : Bool × List PlayerEntry :=
  match findPlayer player_name board with
  | some p =>
    if score ≤ p.best_score then (false, board)
    else
      (true, sortPlayers (update_first player_name
        (fun q => { q with best_score := score, date := now,
                           time_taken := time_taken }) board))
  | none =>
    (true, sortPlayers (board ++
      [{ name := player_name, best_score := score, date := now,
         time_taken := time_taken }]))

/-- `LeaderboardManager.get_leaderboard(top_n)`: sort, take the first
`top_n`. -/
def get_leaderboard (top_n : ℕ) (board : List PlayerEntry) :
    List PlayerEntry :=
  (sortPlayers board).take top_n

/-- `LeaderboardManager.get_player_best_score(player_name)`: case-insensitive
scan of the unsorted players array. -/
def get_player_best_score (player_name : String)
    (board : List PlayerEntry) : Option PlayerEntry :=
  findPlayer player_name board

/-- `LeaderboardManager.get_player_rank(player_name)`: 1-indexed position of
the first case-insensitive match in the sorted list, `none` when absent. -/
def get_player_rank (player_name : String) (board : List PlayerEntry) :
    Option ℕ :=
  ((sortPlayers board).findIdx?
    (fun p => lowerStr p.name == lowerStr player_name)).map (· + 1)

/-- `LeaderboardManager.get_all_players()`: the whole collection, sorted. -/
def get_all_players (board : List PlayerEntry) : List PlayerEntry :=
  sortPlayers board

/-! ## Concrete states used to instantiate the theorems -/

/-- The state `__init__` was meant to build on a 20×20 grid (and the state
`restart` builds, up to the food cell): the reference point for the engine
theorems. -/
def baseState : GameState where
  width := 20
  height := 20
  player_name := "Player"
  score := 0
  game_over := false
  paused := false
  snake := [(10, 10)]
  direction := .right
  next_direction := .right
  food := (5, 5)
  obstacles := []
  difficulty_level := 1
  base_speed := 4
  speed := 4
  ticks := 0

/-- `baseState` with a pending turn upward already stored. -/
def pendingUpState : GameState :=
  { baseState with next_direction := .up }

/-- `baseState` with the given score. -/
def atScore (n : ℤ) : GameState :=
  { baseState with score := n }

/-! ## Helper lemmas -/

theorem generate_food_init_ne_found (snake : List Pos) :
    ∀ (draws : List Pos) (c : Pos),
      generate_food_init snake draws ≠ .found c := by
  intro draws
  induction draws with
  | nil => intro c h; cases h
  | cons d ds ih =>
    intro c h
    simp only [generate_food_init] at h
    split at h
    · exact ih c h
    · cases h

theorem update_difficulty_ticks (rng : ℕ → Pos) (s : GameState) :
    (update_difficulty rng s).ticks = s.ticks := by
  simp only [update_difficulty]
  split
  · split <;> rfl
  · rfl

theorem update_difficulty_snake (rng : ℕ → Pos) (s : GameState) :
    (update_difficulty rng s).snake = s.snake := by
  simp only [update_difficulty]
  split
  · split <;> rfl
  · rfl

theorem update_difficulty_food (rng : ℕ → Pos) (s : GameState) :
    (update_difficulty rng s).food = s.food := by
  simp only [update_difficulty]
  split
  · split <;> rfl
  · rfl

theorem update_difficulty_score (rng : ℕ → Pos) (s : GameState) :
    (update_difficulty rng s).score = s.score := by
  simp only [update_difficulty]
  split
  · split <;> rfl
  · rfl

theorem update_difficulty_obstacles_cases (rng : ℕ → Pos) (s : GameState) :
    (update_difficulty rng s).obstacles = s.obstacles ∨
      ∃ count, (update_difficulty rng s).obstacles =
        generate_obstacles rng s.snake s.food count := by
  simp only [update_difficulty]
  split
  · split
    · exact Or.inr ⟨_, rfl⟩
    · exact Or.inl rfl
  · exact Or.inl rfl

theorem generate_food_mem (snake obstacles : List Pos) :
    ∀ (draws : List Pos) (c : Pos),
      generate_food snake obstacles draws = some c →
        c ∉ snake ∧ c ∉ obstacles := by
  intro draws
  induction draws with
  | nil => intro c h; cases h
  | cons d ds ih =>
    intro c h
    simp only [generate_food] at h
    split at h
    · exact ih c h
    · next hvalid =>
        cases h
        push_neg at hvalid
        exact hvalid

theorem generate_obstacles_go_mem (rng : ℕ → Pos) (snake : List Pos)
    (food head : Pos) (count : ℤ) :
    ∀ (fuel attempt : ℕ) (acc : List Pos) (p : Pos),
      p ∈ generate_obstacles_go rng snake food head count fuel attempt acc →
        p ∈ acc ∨ (p ∉ snake ∧ p ≠ food) := by
  intro fuel
  induction fuel with
  | zero => intro attempt acc p h; exact Or.inl h
  | succ n ih =>
    intro attempt acc p h
    simp only [generate_obstacles_go] at h
    split at h
    · rcases ih (attempt + 1) _ p h with hacc | hgood
      · revert hacc
        split
        · next hkeep =>
            intro hacc
            rcases List.mem_append.mp hacc with h1 | h1
            · exact Or.inl h1
            · rcases List.mem_singleton.mp h1 with rfl
              exact Or.inr ⟨hkeep.1, hkeep.2.1⟩
        · intro hacc; exact Or.inl hacc
      · exact Or.inr hgood
    · exact Or.inl h

theorem mem_generate_obstacles (rng : ℕ → Pos) (snake : List Pos)
    (food : Pos) (count : ℤ) (p : Pos)
    (h : p ∈ generate_obstacles rng snake food count) :
    p ∉ snake ∧ p ≠ food := by
  rcases generate_obstacles_go_mem rng snake food (snake.headD (0, 0)) count
    100 0 [] p h with hacc | hgood
  · cases hacc
  · exact hgood

theorem update_difficulty_level (rng : ℕ → Pos) (s : GameState) :
    (update_difficulty rng s).difficulty_level = 1 + s.score.fdiv 50 := by
  by_cases h : 1 + s.score.fdiv 50 ≠ s.difficulty_level
  · by_cases h3 : 3 ≤ 1 + s.score.fdiv 50 <;>
      simp [update_difficulty, h, h3]
  · push_neg at h
    simp [update_difficulty, h]

/-! ## Claims -/

/-- C1: the claim states that construction succeeds for every width ≥ 1,
height ≥ 1 and player name, producing the documented initial state.  In fact
`SnakeGame.__init__` can never return normally: line 49 runs
`self.food = self._generate_food()` and `_generate_food` evaluates
`(x, y) not in self.obstacles`, but `self.obstacles` is only assigned on
line 50, so the first drawn cell that is off the snake raises
`AttributeError` (and until then the loop only consumes draws).  The first
conjunct proves no draw sequence makes `__init__` return a state; the second
evaluates the failing input `SnakeGame(20, 20, "Player")` with first draw
(0, 0). -/
theorem init_never_succeeds :
    (∀ (width height : ℤ) (player_name : String) (foodDraws : List Pos)
        (s : GameState),
        SnakeGame_init width height player_name foodDraws ≠ .ok s) ∧
      SnakeGame_init 20 20 "Player" [(0, 0)] = .attrError := by
  constructor
  · intro w h name draws s hok
    simp only [SnakeGame_init] at hok
    split at hok
    · cases hok
    · cases hok
    · next c heq => exact generate_food_init_ne_found _ draws c heq
  · rfl

/-- C6 counterexample: in a state whose committed direction is Right but
whose pending direction is already Up, requesting Left (whose delta cancels
Right's) is ignored, leaving the pending direction Up — not equal to the
current direction Right as the claim asserts. -/
theorem set_direction_reverse_keeps_pending_not_current :
    pendingUpState.direction.delta + Direction.delta .left =
        ((0 : ℤ), (0 : ℤ)) ∧
      (set_direction .left pendingUpState).next_direction ≠
        pendingUpState.direction := by
  decide

/-- C6 (amended): when the requested direction's delta sums with the current
direction's delta to the zero vector, `set_direction` leaves the whole state
— in particular the pending direction — unchanged (not necessarily equal to
the current direction); otherwise it stores the request as the pending
direction and changes nothing else. -/
theorem set_direction_spec (s : GameState) (d : Direction) :
    (s.direction.delta + d.delta = ((0 : ℤ), (0 : ℤ)) →
      set_direction d s = s) ∧
    (s.direction.delta + d.delta ≠ ((0 : ℤ), (0 : ℤ)) →
      set_direction d s = { s with next_direction := d }) := by
  constructor <;> intro h
  · simp only [set_direction, if_pos h]
  · simp only [set_direction, if_neg h]

/-- Witness for C6's amended theorem at concrete inputs: a blocked reversal
and an accepted turn. -/
theorem set_direction_spec_witness :
    set_direction .left pendingUpState = pendingUpState ∧
      set_direction .down pendingUpState =
        { pendingUpState with next_direction := .down } :=
  ⟨(set_direction_spec pendingUpState .left).1 (by decide),
   (set_direction_spec pendingUpState .down).2 (by decide)⟩

/-- C2 counterexample: at score 150 the re-evaluated tier is 4, not 3 as the
claim asserts (tier = 1 + 150 // 50 = 4). -/
theorem difficulty_at_150_is_4 :
    (update_difficulty (fun _ => (0, 0)) (atScore 150)).difficulty_level
        ≠ 3 ∧
      (update_difficulty (fun _ => (0, 0))
        (atScore 150)).difficulty_level = 4 := by
  constructor
  · rw [update_difficulty_level]; decide
  · rw [update_difficulty_level]; decide

/-- C2 (amended): the tier is always re-evaluated to 1 + floor(score/50);
score 49 gives tier 1, score 50 tier 2; obstacles are untouched while the
tier stays below 3 and first appear when the tier reaches 3 — at score 100,
not 150 — with requested count 2; score 150 gives tier 4 and regenerates the
obstacles with requested count 4; score 350 gives tier 8 with the speed
capped at 12. -/
theorem difficulty_tiers :
    (∀ (rng : ℕ → Pos) (s : GameState),
      (update_difficulty rng s).difficulty_level = 1 + s.score.fdiv 50) ∧
    (∀ (rng : ℕ → Pos) (s : GameState), 1 + s.score.fdiv 50 < 3 →
      (update_difficulty rng s).obstacles = s.obstacles) ∧
    (∀ (rng : ℕ → Pos) (s : GameState),
      s.score = 100 → s.difficulty_level < 3 →
      (update_difficulty rng s).obstacles =
        generate_obstacles rng s.snake s.food 2) ∧
    (∀ (rng : ℕ → Pos) (s : GameState),
      s.score = 150 → s.difficulty_level ≠ 4 →
      (update_difficulty rng s).obstacles =
        generate_obstacles rng s.snake s.food 4) ∧
    (∀ rng, (update_difficulty rng (atScore 49)).difficulty_level = 1) ∧
    (∀ rng, (update_difficulty rng (atScore 50)).difficulty_level = 2) ∧
    (∀ rng, (update_difficulty rng (atScore 100)).difficulty_level = 3) ∧
    (∀ rng, (update_difficulty rng (atScore 150)).difficulty_level = 4) ∧
    (∀ rng, (update_difficulty rng (atScore 350)).difficulty_level = 8 ∧
      (update_difficulty rng (atScore 350)).speed = 12) := by
  refine ⟨update_difficulty_level, ?_, ?_, ?_, ?_, ?_, ?_, ?_, ?_⟩
  · intro rng s hlt
    by_cases h : 1 + s.score.fdiv 50 ≠ s.difficulty_level
    · have h3 : ¬ (3 ≤ 1 + s.score.fdiv 50) := by omega
      simp [update_difficulty, h, h3]
    · push_neg at h
      simp [update_difficulty, h]
  · intro rng s hsc hlv
    have hv : (1 : ℤ) + (100 : ℤ).fdiv 50 = 3 := by decide
    have h : 1 + s.score.fdiv 50 ≠ s.difficulty_level := by
      rw [hsc, hv]; omega
    have h3 : 3 ≤ 1 + s.score.fdiv 50 := by rw [hsc, hv]
    have hcount : min (2 + (1 + s.score.fdiv 50 - 3) * 2) 10 = 2 := by
      rw [hsc, hv]; decide
    simp [update_difficulty, h, h3, hcount]
  · intro rng s hsc hlv
    have hv : (1 : ℤ) + (150 : ℤ).fdiv 50 = 4 := by decide
    have h : 1 + s.score.fdiv 50 ≠ s.difficulty_level := by
      rw [hsc, hv]; omega
    have h3 : 3 ≤ 1 + s.score.fdiv 50 := by rw [hsc, hv]; decide
    have hcount : min (2 + (1 + s.score.fdiv 50 - 3) * 2) 10 = 4 := by
      rw [hsc, hv]; decide
    simp [update_difficulty, h, h3, hcount]
  · intro rng; rw [update_difficulty_level]; decide
  · intro rng; rw [update_difficulty_level]; decide
  · intro rng; rw [update_difficulty_level]; decide
  · intro rng; rw [update_difficulty_level]; decide
  · intro rng
    refine ⟨by rw [update_difficulty_level]; decide, ?_⟩
    have hf : (350 : ℤ).fdiv 50 = 7 := by decide
    simp only [update_difficulty, atScore, baseState, hf]
    norm_num [min_def]

/-- `baseState` with the snake against the right wall: the next tick in the
committed direction Right collides with the wall. -/
def wallState : GameState :=
  { baseState with snake := [(19, 10)] }

/-- C4: in any non-game-over, non-paused state in which the cell one step
from the head in the committed direction is out of bounds, on the snake, or
on an obstacle, `update` sets the game-over flag, returns false, and leaves
the snake sequence unchanged. -/
theorem terminal_tick (s : GameState) (rngF : List Pos) (rngO : ℕ → Pos)
    (hgo : s.game_over = false) (hp : s.paused = false)
    (hterm : outOfBounds s (nextHead s) ∨ nextHead s ∈ s.snake ∨
      nextHead s ∈ s.obstacles) :
    ∃ s', update rngF rngO s = some (false, s') ∧ s'.game_over = true ∧
      s'.snake = s.snake := by
  refine ⟨{ s with ticks := s.ticks + 1, direction := s.next_direction, game_over := true }, ?_, rfl, rfl⟩
  simp only [update, hgo, hp, Bool.or_self, Bool.false_eq_true, if_false]
  split
  next => rfl
  next h1 =>
    split
    next => rfl
    next h2 =>
      split
      next => rfl
      next h3 =>
        rcases hterm with ht | ht | ht
        · exact absurd ht h1
        · exact absurd ht h2
        · exact absurd ht h3

/-- Witness for C4 on a concrete wall collision: the snake at (19, 10)
heading Right on a 20×20 grid. -/
theorem terminal_tick_witness :
    ∃ s', update [] (fun _ => (0, 0)) wallState = some (false, s') ∧
      s'.game_over = true ∧ s'.snake = wallState.snake :=
  terminal_tick wallState [] (fun _ => (0, 0)) rfl rfl
    (Or.inl (by decide))

/-- C5 counterexample: on the wall-collision state the tick ends in game
over and `update` returns false, yet the tick counter moves from 0 to 1 —
the code increments `self.ticks` before the collision checks, not after
them, so the increment is not tied to the tick returning true. -/
theorem ticks_increment_on_terminal_tick :
    update [] (fun _ => (0, 0)) wallState =
      some (false, { wallState with ticks := 1, direction := .right, game_over := true }) ∧
      wallState.ticks = 0 := by
  constructor
  · decide
  · rfl

/-- C5 (amended): the tick counter is incremented at the START of `update`,
right after the game-over/pause guard and before the collision checks: a
guarded call (game over or paused) leaves the state untouched, while every
call that passes the guard — including one that ends in game over and
returns false — increments the counter by exactly one. -/
theorem tick_counter_spec (s : GameState) (rngF : List Pos) (rngO : ℕ → Pos) :
    ((s.game_over = true ∨ s.paused = true) →
      update rngF rngO s = some (!s.game_over, s)) ∧
    (s.game_over = false → s.paused = false →
      ∀ (b : Bool) (s' : GameState), update rngF rngO s = some (b, s') →
        s'.ticks = s.ticks + 1) := by
  constructor
  · intro h
    have hcond : (s.game_over || s.paused) = true := by
      rcases h with h | h <;> simp [h]
    simp only [update, hcond, if_true]
  · intro hgo hp b s' h
    simp only [update, hgo, hp, Bool.or_self, Bool.false_eq_true,
      if_false] at h
    split at h
    next => cases h; rfl
    next =>
      split at h
      next => cases h; rfl
      next =>
        split at h
        next => cases h; rfl
        next =>
          split at h
          · split at h
            next => cases h
            next =>
              cases h
              rw [update_difficulty_ticks]
          · cases h; rfl

/-- Witness for C5's amended theorem: a paused state is a no-op, and the
concrete wall-collision tick increments the counter to 1. -/
theorem tick_counter_spec_witness :
    update [] (fun _ => (0, 0)) { baseState with paused := true } =
        some (true, { baseState with paused := true }) ∧
      ∀ (b : Bool) (s' : GameState),
        update [] (fun _ => (0, 0)) wallState = some (b, s') →
          s'.ticks = wallState.ticks + 1 :=
  ⟨(tick_counter_spec { baseState with paused := true } [] (fun _ => (0, 0))).1
      (Or.inr rfl),
   (tick_counter_spec wallState [] (fun _ => (0, 0))).2 rfl rfl⟩

theorem update_first_mem (key : String) (f : PlayerEntry → PlayerEntry) :
    ∀ (board : List PlayerEntry) (p : PlayerEntry),
      findPlayer key board = some p → f p ∈ update_first key f board := by
  intro board
  induction board with
  | nil => intro p h; cases h
  | cons q qs ih =>
    intro p h
    rw [findPlayer, List.find?_cons] at h
    simp only [update_first]
    by_cases hq : (lowerStr q.name == lowerStr key) = true
    · rw [if_pos hq]
      rw [hq] at h
      cases h
      exact List.mem_cons_self _ _
    · rw [if_neg hq]
      rw [Bool.not_eq_true] at hq
      rw [hq] at h
      exact List.mem_cons_of_mem _ (ih p h)

/-- C3: submitting a score that does not beat the stored best of a
case-insensitive name match leaves the persisted collection completely
unchanged and reports false; a strictly greater score overwrites the matched
entry (keeping its stored name) with the new score, date and time, re-sorts
by (score descending, name ascending) and reports true; an unknown name
appends a fresh entry, re-sorts the same way and reports true. -/
theorem submit_score_spec :
    (∀ (now name : String) (score t : ℤ) (board : List PlayerEntry)
        (p : PlayerEntry),
      findPlayer name board = some p → score ≤ p.best_score →
        submit_score now name score t board = (false, board)) ∧
    (∀ (now name : String) (score t : ℤ) (board : List PlayerEntry)
        (p : PlayerEntry),
      findPlayer name board = some p → p.best_score < score →
        (submit_score now name score t board).1 = true ∧
        (submit_score now name score t board).2 =
          sortPlayers (update_first name
            (fun q => { q with best_score := score, date := now, time_taken := t }) board) ∧
        List.Sorted entryLE (submit_score now name score t board).2 ∧
        { p with best_score := score, date := now, time_taken := t } ∈
          (submit_score now name score t board).2) ∧
    (∀ (now name : String) (score t : ℤ) (board : List PlayerEntry),
      findPlayer name board = none →
        (submit_score now name score t board).1 = true ∧
        List.Sorted entryLE (submit_score now name score t board).2 ∧
        ({ name := name, best_score := score, date := now,
           time_taken := t } : PlayerEntry) ∈
          (submit_score now name score t board).2) := by
  refine ⟨?_, ?_, ?_⟩
  · intro now name score t board p hfind hle
    simp only [submit_score, hfind, if_pos hle]
  · intro now name score t board p hfind hlt
    have hnle : ¬ score ≤ p.best_score := not_le.mpr hlt
    simp only [submit_score, hfind, if_neg hnle]
    refine ⟨trivial, trivial, List.sorted_insertionSort entryLE _, ?_⟩
    exact (List.perm_insertionSort entryLE _).mem_iff.mpr
      (update_first_mem name _ board p hfind)
  · intro now name score t board hfind
    simp only [submit_score, hfind]
    refine ⟨trivial, List.sorted_insertionSort entryLE _, ?_⟩
    exact (List.perm_insertionSort entryLE _).mem_iff.mpr
      (List.mem_append_right _ (List.mem_singleton.mpr rfl))

/-- Witness for C3 on the spec's own scenario: with Alice stored at 100,
submitting 80 for "alice" changes nothing and reports false; submitting 150
reports true; a name with no match reports true. -/
theorem submit_score_spec_witness :
    submit_score "d1" "alice" 80 7 [⟨"Alice", 100, "d0", 5⟩] =
        (false, [⟨"Alice", 100, "d0", 5⟩]) ∧
      (submit_score "d1" "alice" 150 7 [⟨"Alice", 100, "d0", 5⟩]).1 =
        true ∧
      (submit_score "d1" "Bob" 90 7 [⟨"Alice", 100, "d0", 5⟩]).1 = true :=
  ⟨submit_score_spec.1 "d1" "alice" 80 7 _ ⟨"Alice", 100, "d0", 5⟩
      (by decide) (by decide),
   (submit_score_spec.2.1 "d1" "alice" 150 7 _ ⟨"Alice", 100, "d0", 5⟩
      (by decide) (by decide)).1,
   (submit_score_spec.2.2 "d1" "Bob" 90 7 _ (by decide)).1⟩

/-- C7: `get_player_rank` for a name with no case-insensitive match returns
none; in the sorted order shared by `get_all_players`, `get_leaderboard` and
`get_player_rank`, of two entries with equal best scores the alphabetically
smaller name comes first; and `get_leaderboard n` is exactly the first `n`
entries of that order. -/
theorem rank_not_found_and_ties (name : String) (board : List PlayerEntry) :
    ((∀ p ∈ board, lowerStr p.name ≠ lowerStr name) →
      get_player_rank name board = none) ∧
    (∀ (i j : Fin (get_all_players board).length), i < j →
      ((get_all_players board).get i).best_score =
        ((get_all_players board).get j).best_score →
      ((get_all_players board).get i).name ≤
        ((get_all_players board).get j).name) ∧
    (∀ n, get_leaderboard n board = (get_all_players board).take n) := by
  refine ⟨?_, ?_, fun n => rfl⟩
  · intro hno
    have hidx : (sortPlayers board).findIdx?
        (fun p => lowerStr p.name == lowerStr name) = none := by
      rw [List.findIdx?_eq_none_iff]
      intro p hp
      have hpb : p ∈ board :=
        (List.perm_insertionSort entryLE board).mem_iff.mp hp
      simp only [beq_eq_false_iff_ne, ne_eq]
      exact hno p hpb
    rw [get_player_rank, hidx, Option.map_none']
  · intro i j hij hsc
    have hsorted : List.Sorted entryLE (get_all_players board) :=
      List.sorted_insertionSort entryLE board
    have hrel := hsorted.rel_get_of_lt hij
    rcases hrel with hlt | ⟨_, hle⟩
    · exact absurd hsc (by omega)
    · exact hle

/-- Witness for C7: no entry matches "alice" case-insensitively, so the rank
is not-found. -/
theorem rank_not_found_and_ties_witness :
    get_player_rank "alice" [⟨"Bob", 50, "d0", 3⟩] = none :=
  (rank_not_found_and_ties "alice" [⟨"Bob", 50, "d0", 3⟩]).1 (by decide)

/-- `baseState` with the food placed directly in the snake's path. -/
def eatState : GameState :=
  { baseState with food := (11, 10) }

/-- C9: a non-terminal tick that lands the new head on the food grows the
snake by exactly one segment, adds exactly 10 to the score, and leaves the
regenerated food on a cell occupied by no snake segment and no obstacle of
the resulting state (whether or not the difficulty step replaced the
obstacles). -/
theorem eating_tick (s : GameState) (rngF : List Pos) (rngO : ℕ → Pos)
    (hgo : s.game_over = false) (hp : s.paused = false)
    (hfood : nextHead s = s.food)
    (s' : GameState) (h : update rngF rngO s = some (true, s')) :
    s'.snake.length = s.snake.length + 1 ∧
      s'.score = s.score + 10 ∧
      s'.food ∉ s'.snake ∧
      s'.food ∉ s'.obstacles := by
  simp only [update, hgo, hp, Bool.or_self, Bool.false_eq_true, if_false] at h
  split at h
  next => simp at h
  next =>
    split at h
    next => simp at h
    next =>
      split at h
      next => simp at h
      next =>
        split at h
        next =>
          -- the food branch: a new food cell was drawn
          split at h
          next => cases h
          next f hgen =>
            have hmem := generate_food_mem _ _ rngF f hgen
            cases h
            refine ⟨?_, ?_, ?_, ?_⟩
            · rw [update_difficulty_snake]; rfl
            · rw [update_difficulty_score]
            · rw [update_difficulty_snake, update_difficulty_food]
              exact hmem.1
            · rw [update_difficulty_food]
              rcases update_difficulty_obstacles_cases rngO _ with hob | ⟨count, hob⟩
              · rw [hob]; exact hmem.2
              · rw [hob]
                intro hin
                exact absurd rfl (mem_generate_obstacles _ _ _ _ _ hin).2
        next hne => exact absurd hfood hne

/-- Witness for C9: eating the food at (11, 10) from the base state, the
replacement food drawn at (0, 0). -/
theorem eating_tick_witness :
    ∃ s', update [(0, 0)] (fun _ => (0, 0)) eatState = some (true, s') ∧
      s'.snake.length = eatState.snake.length + 1 ∧
      s'.score = eatState.score + 10 ∧
      s'.food ∉ s'.snake ∧
      s'.food ∉ s'.obstacles :=
  ⟨_, rfl, eating_tick eatState [(0, 0)] (fun _ => (0, 0)) rfl rfl
    (by decide) _ rfl⟩

/-- Witness for C2's amended theorem: the obstacle conjuncts instantiated at
a score-49 state (tier stays below 3), a score-100 state (tier reaches 3,
requested count 2) and a score-150 state (tier 4, requested count 4), with
the constant random stream. -/
theorem difficulty_tiers_witness :
    (update_difficulty (fun _ => (0, 0)) (atScore 49)).obstacles =
        (atScore 49).obstacles ∧
      (update_difficulty (fun _ => (0, 0)) (atScore 100)).obstacles =
        generate_obstacles (fun _ => (0, 0)) (atScore 100).snake
          (atScore 100).food 2 ∧
      (update_difficulty (fun _ => (0, 0)) (atScore 150)).obstacles =
        generate_obstacles (fun _ => (0, 0)) (atScore 150).snake
          (atScore 150).food 4 :=
  ⟨difficulty_tiers.2.1 (fun _ => (0, 0)) (atScore 49) (by decide),
   difficulty_tiers.2.2.1 (fun _ => (0, 0)) (atScore 100) (by decide)
     (by decide),
   difficulty_tiers.2.2.2.1 (fun _ => (0, 0)) (atScore 150) (by decide)
     (by decide)⟩

/-- C8: when the persisted document is missing or not parseable, every read
path behaves exactly as over an empty collection and raises nothing: the top
list and the full list are empty, player lookup and rank report not-found,
and the read phase of submit sees an empty collection, so a submission
produces the single-entry document. -/
theorem corrupt_doc_reads_empty (doc : StoredDoc)
    (h : doc = .missing ∨ ∃ raw, doc = .malformed raw) :
    read_leaderboard doc = [] ∧
      (∀ n, get_leaderboard n (read_leaderboard doc) = []) ∧
      (∀ name, get_player_best_score name (read_leaderboard doc) = none) ∧
      (∀ name, get_player_rank name (read_leaderboard doc) = none) ∧
      get_all_players (read_leaderboard doc) = [] ∧
      (∀ (now name : String) (score t : ℤ),
        submit_score now name score t (read_leaderboard doc) =
          (true, [{ name := name, best_score := score, date := now, time_taken := t }])) := by
  have hempty : read_leaderboard doc = [] := by
    rcases h with rfl | ⟨raw, rfl⟩ <;> rfl
  rw [hempty]
  exact ⟨rfl, fun n => by simp [get_leaderboard, sortPlayers],
    fun name => rfl, fun name => rfl, rfl, fun now name score t => rfl⟩

/-- Witness for C8 on a concrete unparseable document. -/
theorem corrupt_doc_reads_empty_witness :
    read_leaderboard (.malformed "not json") = [] ∧
      get_player_rank "Player" (read_leaderboard (.malformed "not json")) =
        none :=
  ⟨(corrupt_doc_reads_empty _ (Or.inr ⟨"not json", rfl⟩)).1,
   (corrupt_doc_reads_empty _ (Or.inr ⟨"not json", rfl⟩)).2.2.2.1 "Player"⟩

/-! ## Reachability and the no-reversal property (C10) -/

/-- The intended freshly-constructed state on a `w × h` grid: single centered
snake segment, both directions Right, no obstacles, score 0.  As proved for
C1, `__init__` itself never returns, so this is the state `restart()`
establishes (and construction was meant to); the food cell is left arbitrary,
which only enlarges the set of states quantified over. -/
def init_state (w h : ℤ) (name : String) (food : Pos) : GameState where
  width := w
  height := h
  player_name := name
  score := 0
  game_over := false
  paused := false
  snake := [(w.fdiv 2, h.fdiv 2)]
  direction := .right
  next_direction := .right
  food := food
  obstacles := []
  difficulty_level := 1
  base_speed := 4
  speed := 4
  ticks := 0

/-- States reachable from a fresh game through the engine's public
operations, with arbitrary random draws and arbitrary interleaving — in
particular any finite sequence of `set_direction` calls between two
`update` calls. -/
inductive Reachable : GameState → Prop
  | init (w h : ℤ) (name : String) (food : Pos) :
      Reachable (init_state w h name food)
  | dir (d : Direction) {s : GameState} :
      Reachable s → Reachable (set_direction d s)
  | tick (rngF : List Pos) (rngO : ℕ → Pos) {s s' : GameState} {b : Bool} :
      Reachable s → update rngF rngO s = some (b, s') → Reachable s'
  | pause {s : GameState} : Reachable s → Reachable (toggle_pause s)
  | reset (new_name : Option String) (foodDraws : List Pos)
      {s s' : GameState} :
      Reachable s → restart new_name foodDraws s = some s' → Reachable s'

/-- No-reversal invariant: the pending direction's delta never cancels the
committed direction's delta. -/
def DirInv (s : GameState) : Prop :=
  s.direction.delta + s.next_direction.delta ≠ ((0 : ℤ), (0 : ℤ))

/-- Geometric invariant: while the game is live, the neck (second segment)
lies exactly one committed-direction step behind the head. -/
def NeckInv (s : GameState) : Prop :=
  s.game_over = false →
    ∀ (hd nk : Pos) (tl : List Pos), s.snake = hd :: nk :: tl →
      nk + s.direction.delta = hd

theorem delta_self_add_ne_zero (d : Direction) :
    d.delta + d.delta ≠ ((0 : ℤ), (0 : ℤ)) := by
  cases d <;> decide

theorem update_difficulty_dirs (rng : ℕ → Pos) (s : GameState) :
    (update_difficulty rng s).direction = s.direction ∧
      (update_difficulty rng s).next_direction = s.next_direction ∧
      (update_difficulty rng s).game_over = s.game_over := by
  simp only [update_difficulty]
  split
  · split
    · exact ⟨rfl, rfl, rfl⟩
    · exact ⟨rfl, rfl, rfl⟩
  · exact ⟨rfl, rfl, rfl⟩

theorem update_preserves_inv (s : GameState) (rngF : List Pos)
    (rngO : ℕ → Pos) (b : Bool) (s' : GameState)
    (h : update rngF rngO s = some (b, s'))
    (hinv : DirInv s ∧ NeckInv s) : DirInv s' ∧ NeckInv s' := by
  simp only [update] at h
  by_cases hguard : (s.game_over || s.paused) = true
  · rw [if_pos hguard] at h
    cases h
    exact hinv
  · rw [if_neg hguard] at h
    split at h
    next =>
      cases h
      exact ⟨delta_self_add_ne_zero _, fun hg => Bool.noConfusion hg⟩
    next =>
      split at h
      next =>
        cases h
        exact ⟨delta_self_add_ne_zero _, fun hg => Bool.noConfusion hg⟩
      next =>
        split at h
        next =>
          cases h
          exact ⟨delta_self_add_ne_zero _, fun hg => Bool.noConfusion hg⟩
        next =>
          split at h
          · split at h
            next => cases h
            next f hgen =>
              cases h
              constructor
              · show DirInv (update_difficulty rngO _)
                unfold DirInv
                rw [(update_difficulty_dirs rngO _).1,
                  (update_difficulty_dirs rngO _).2.1]
                exact delta_self_add_ne_zero _
              · intro hg hd nk tl hsnake
                rw [(update_difficulty_dirs rngO _).1]
                rw [update_difficulty_snake] at hsnake
                injection hsnake with h1 h2
                show nk + s.next_direction.delta = hd
                rw [← h1]
                show nk + s.next_direction.delta =
                  s.snake.headD (0, 0) + s.next_direction.delta
                rw [h2]
                rfl
          · cases h
            constructor
            · exact delta_self_add_ne_zero _
            · intro hg hd nk tl hsnake
              show nk + s.next_direction.delta = hd
              have hsnake' :
                  ((s.snake.headD (0, 0) + s.next_direction.delta) ::
                    s.snake).dropLast = hd :: nk :: tl := hsnake
              cases hsn : s.snake with
              | nil =>
                rw [hsn] at hsnake'
                simp at hsnake'
              | cons a rest =>
                rw [hsn, List.dropLast_cons₂] at hsnake'
                cases rest with
                | nil =>
                  injection hsnake' with h1 h2
                  simp at h2
                | cons r rs =>
                  rw [List.dropLast_cons₂] at hsnake'
                  injection hsnake' with h1 h2
                  injection h2 with h2a h2b
                  rw [← h1, ← h2a]
                  rfl

theorem reachable_inv {s : GameState} (h : Reachable s) :
    DirInv s ∧ NeckInv s := by
  induction h with
  | init w h name food =>
    constructor
    · show Direction.delta .right + Direction.delta .right ≠
        ((0 : ℤ), (0 : ℤ))
      decide
    · intro _ hd nk tl hsnake
      simp [init_state] at hsnake
  | dir d hs ih =>
    by_cases hc : (‹GameState›.direction.delta + d.delta =
        ((0 : ℤ), (0 : ℤ)))
    · simpa only [set_direction, if_pos hc] using ih
    · simp only [set_direction, if_neg hc]
      refine ⟨hc, ?_⟩
      intro hg hd nk tl hsnake
      exact ih.2 hg hd nk tl hsnake
  | tick rngF rngO hs heq ih => exact update_preserves_inv _ _ _ _ _ heq ih
  | pause hs ih =>
    refine ⟨ih.1, ?_⟩
    intro hg hd nk tl hsnake
    exact ih.2 hg hd nk tl hsnake
  | reset new_name foodDraws hs heq ih =>
    simp only [restart] at heq
    split at heq
    next => cases heq
    next f hgen =>
      cases heq
      constructor
      · show Direction.delta .right + Direction.delta .right ≠
          ((0 : ℤ), (0 : ℤ))
        decide
      · intro _ hd nk tl hsnake
        cases hsnake

/-- C10: in every reachable state — hence after any finite sequence of
`set_direction` calls between two consecutive ticks — the pending direction
(the one the next tick will commit) is never the exact reverse of the
currently committed one; consequently, while the game is live and the snake
has length at least 2, the head the next tick computes never equals the
second segment (the neck). -/
theorem no_reversal (s : GameState) (h : Reachable s) :
    s.direction.delta + s.next_direction.delta ≠ ((0 : ℤ), (0 : ℤ)) ∧
      (s.game_over = false →
        ∀ (hd nk : Pos) (tl : List Pos), s.snake = hd :: nk :: tl →
          nextHead s ≠ nk) := by
  obtain ⟨hdir, hneck⟩ := reachable_inv h
  refine ⟨hdir, ?_⟩
  intro hg hd nk tl hsnake hcontra
  have hnk : nk + s.direction.delta = hd := hneck hg hd nk tl hsnake
  have hnh : nextHead s = hd + s.next_direction.delta := by
    rw [nextHead, hsnake]
    rfl
  apply hdir
  have : nk + s.direction.delta + s.next_direction.delta = nk := by
    rw [hnk, ← hnh, hcontra]
  have h0 : nk + (s.direction.delta + s.next_direction.delta) = nk + 0 := by
    rw [← add_assoc, this, add_zero]
  exact add_left_cancel h0

/-- Witness for C10 at the freshly constructed 20×20 state. -/
theorem no_reversal_witness :
    (init_state 20 20 "Player" (0, 0)).direction.delta +
        (init_state 20 20 "Player" (0, 0)).next_direction.delta ≠
          ((0 : ℤ), (0 : ℤ)) ∧
      ((init_state 20 20 "Player" (0, 0)).game_over = false →
        ∀ (hd nk : Pos) (tl : List Pos),
          (init_state 20 20 "Player" (0, 0)).snake = hd :: nk :: tl →
            nextHead (init_state 20 20 "Player" (0, 0)) ≠ nk) :=
  no_reversal _ (Reachable.init 20 20 "Player" (0, 0))

end SnakeRush
